import Mathlib

/-!
Verification of the agent-virtual-assistant repository core: the reminder
engine (package reminder), the structured-response action dispatcher
(package bot), the calendar collaborator call sites (package calendar) and
the natural-language engine call sites (package llm).

Strings are modelled over character lists because the Go code works on
UTF-8 strings one rune at a time; every helper below mirrors the exact Go
standard-library routine named in its doc comment.
-/

/-- Models Go strings.Split with a single-character separator: splits the
character list at every occurrence of sep, keeping empty segments. -/
def splitOnChar (sep : Char) : List Char → List (List Char)
  | [] => [[]]
  | c :: cs =>
    let r := splitOnChar sep cs
    if c = sep then [] :: r
    else
      match r with
      | [] => [[c]]
      | h :: t => (c :: h) :: t

/-- Models Go strings.Split(s, sep) for a one-character separator. -/
def goSplit (sep : Char) (s : String) : List String :=
  (splitOnChar sep s.data).map String.mk

/-- Models strings.Split(s, "\n") as used by the response handlers. -/
def strLines (s : String) : List String :=
  goSplit '\n' s

/-- ASCII white space as recognized by Go unicode.IsSpace on the inputs this
program handles (space, tab, newline, carriage return, vertical tab, form
feed). -/
def isSpaceChar (c : Char) : Bool :=
  c == ' ' || c == '\t' || c == '\n' || c == '\r' || c == '\x0b' || c == '\x0c'

/-- Models Go strings.TrimSpace. -/
def goTrim (s : String) : String :=
  String.mk (((s.data.dropWhile isSpaceChar).reverse.dropWhile isSpaceChar).reverse)

/-- Character-list core of Go strings.HasPrefix. -/
def hasPrefixChars : List Char → List Char → Bool
  | [], _ => true
  | _ :: _, [] => false
  | p :: ps, c :: cs => p == c && hasPrefixChars ps cs

/-- Models Go strings.HasPrefix(s, pre). -/
def goHasPrefix (s pre : String) : Bool :=
  hasPrefixChars pre.data s.data

/-- Models Go strings.TrimPrefix(s, tag): drops tag when it is a prefix,
otherwise returns s unchanged. -/
def stripTag (s tag : String) : String :=
  if goHasPrefix s tag then String.mk (s.data.drop tag.data.length) else s

namespace Reminder

/-- Models a Go time.Time restricted to second granularity: the absolute
instant as Unix seconds plus the fixed zone offset in seconds that
time.Parse attaches to the value (RFC3339 inputs carry a numeric zone). -/
structure GoTime where
  unix : Int
  offset : Int
deriving DecidableEq, Repr

/-- Days from civil date (proleptic Gregorian), the arithmetic underlying
Go time.Date/Unix; floor divisions throughout. -/
def daysFromCivil (y m d : Int) : Int :=
  let yAdj := if m ≤ 2 then y - 1 else y
  let era := Int.fdiv yAdj 400
  let yoe := yAdj - era * 400
  let mp := Int.fmod (m + 9) 12
  let doy := Int.fdiv (153 * mp + 2) 5 + d - 1
  let doe := yoe * 365 + Int.fdiv yoe 4 - Int.fdiv yoe 100 + doy
  era * 146097 + doe - 719468

/-- Civil date (year, month, day) from days since the Unix epoch, the
inverse of daysFromCivil. -/
def civilFromDays (z0 : Int) : Int × Int × Int :=
  let z := z0 + 719468
  let era := Int.fdiv z 146097
  let doe := z - era * 146097
  let yoe := Int.fdiv (doe - Int.fdiv doe 1460 + Int.fdiv doe 36524 - Int.fdiv doe 146096) 365
  let y := yoe + era * 400
  let doy := doe - (365 * yoe + Int.fdiv yoe 4 - Int.fdiv yoe 100)
  let mp := Int.fdiv (5 * doy + 2) 153
  let d := doy - Int.fdiv (153 * mp + 2) 5 + 1
  let m := if mp < 10 then mp + 3 else mp - 9
  (if m ≤ 2 then y + 1 else y, m, d)

/-- Decimal digit test on a character. -/
def isDigitChar (c : Char) : Bool :=
  48 ≤ c.toNat && c.toNat ≤ 57

/-- Reads exactly n decimal digits, returning their value and the rest. -/
def readDigits : Nat → Nat → List Char → Option (Nat × List Char)
  | 0, acc, cs => some (acc, cs)
  | _ + 1, _, [] => none
  | n + 1, acc, c :: cs =>
    if isDigitChar c then readDigits n (acc * 10 + (c.toNat - 48)) cs else none

/-- Consumes one expected character. -/
def expectChar (c : Char) : List Char → Option (List Char)
  | d :: cs => if d == c then some cs else none
  | [] => none

/-- Gregorian leap-year rule used by Go time. -/
def isLeapYear (y : Nat) : Bool :=
  (y % 4 == 0 && y % 100 != 0) || y % 400 == 0

/-- Length of a month, matching the range check Go time.Parse performs. -/
def daysInMonth (y m : Nat) : Nat :=
  if m == 2 then (if isLeapYear y then 29 else 28)
  else if m == 4 || m == 6 || m == 9 || m == 11 then 30 else 31

/-- Consumes an optional fractional-second part: a dot followed by at least
one digit; the fraction is discarded at this second-granularity model. -/
def dropFraction : List Char → Option (List Char)
  | '.' :: cs =>
    if (cs.takeWhile isDigitChar).length = 0 then none
    else some (cs.dropWhile isDigitChar)
  | r => some r

/-- Reads the numeric zone suffix, two hour digits, a colon and two minute
digits after a sign, returning the offset in seconds. -/
def readZoneOffset (sign : Int) (r : List Char) : Option Int := do
  let (oh, r) ← readDigits 2 0 r
  let r ← expectChar ':' r
  let (om, r) ← readDigits 2 0 r
  if r = [] ∧ oh ≤ 23 ∧ om ≤ 59 then some (sign * (oh * 3600 + om * 60)) else none

/-- Reads the RFC3339 zone part: the literal Z or a signed hh:mm offset. -/
def readZone : List Char → Option Int
  | ['Z'] => some 0
  | '+' :: r => readZoneOffset 1 r
  | '-' :: r => readZoneOffset (-1) r
  | _ => none

/-- Models time.Parse(time.RFC3339, s) at second granularity: strict
yyyy-mm-ddThh:mm:ss with optional fraction and a mandatory zone, with the
same range validation Go performs; returns the instant and its zone. -/
def parseRFC3339 (s : String) : Option GoTime := do
  let r0 := s.data
  let (y, r1) ← readDigits 4 0 r0
  let r2 ← expectChar '-' r1
  let (mo, r3) ← readDigits 2 0 r2
  let r4 ← expectChar '-' r3
  let (d, r5) ← readDigits 2 0 r4
  let r6 ← expectChar 'T' r5
  let (h, r7) ← readDigits 2 0 r6
  let r8 ← expectChar ':' r7
  let (mi, r9) ← readDigits 2 0 r8
  let r10 ← expectChar ':' r9
  let (se, r11) ← readDigits 2 0 r10
  let r12 ← dropFraction r11
  let off ← readZone r12
  if 1 ≤ mo ∧ mo ≤ 12 ∧ 1 ≤ d ∧ d ≤ daysInMonth y mo ∧ h ≤ 23 ∧ mi ≤ 59 ∧ se ≤ 59 then
    some { unix := daysFromCivil y mo d * 86400 + (h * 3600 + mi * 60 + se : Nat) - off,
           offset := off }
  else none

/-- Models time.Parse("2006-01-02T15:04", s) as used by the housekeeping
pass: a bare minute-granularity timestamp interpreted in UTC. -/
def parseMinuteUTC (s : String) : Option Int := do
  let r0 := s.data
  let (y, r1) ← readDigits 4 0 r0
  let r2 ← expectChar '-' r1
  let (mo, r3) ← readDigits 2 0 r2
  let r4 ← expectChar '-' r3
  let (d, r5) ← readDigits 2 0 r4
  let r6 ← expectChar 'T' r5
  let (h, r7) ← readDigits 2 0 r6
  let r8 ← expectChar ':' r7
  let (mi, r9) ← readDigits 2 0 r8
  if r9 = [] ∧ 1 ≤ mo ∧ mo ≤ 12 ∧ 1 ≤ d ∧ d ≤ daysInMonth y mo ∧ h ≤ 23 ∧ mi ≤ 59 then
    some (daysFromCivil y mo d * 86400 + (h * 3600 + mi * 60 : Nat))
  else none

/-- Two-digit zero padding, as produced by the Go reference layouts 01, 02,
15, 04. -/
def pad2 (n : Int) : String :=
  if 0 ≤ n ∧ n < 10 then "0" ++ toString n else toString n

/-- Four-digit zero padding for the year field of the layout 2006. -/
def pad4 (n : Int) : String :=
  if 0 ≤ n ∧ n < 10 then "000" ++ toString n
  else if 0 ≤ n ∧ n < 100 then "00" ++ toString n
  else if 0 ≤ n ∧ n < 1000 then "0" ++ toString n
  else toString n

/-- Models eventTime.Format("2006-01-02T15:04"): the minute-truncated wall
clock of the instant in its own zone, used to build reminder keys. -/
def formatMinute (t : GoTime) : String :=
  let loc := t.unix + t.offset
  let ymd := civilFromDays (Int.fdiv loc 86400)
  let sod := Int.fmod loc 86400
  pad4 ymd.1 ++ "-" ++ pad2 ymd.2.1 ++ "-" ++ pad2 ymd.2.2 ++ "T" ++
    pad2 (Int.fdiv sod 3600) ++ ":" ++ pad2 (Int.fmod (Int.fdiv sod 60) 60)

/-- Models eventTime.Format("15:04"): wall-clock hour and minute in the
zone of the instant. -/
def formatHM (t : GoTime) : String :=
  let loc := t.unix + t.offset
  let sod := Int.fmod loc 86400
  pad2 (Int.fdiv sod 3600) ++ ":" ++ pad2 (Int.fmod (Int.fdiv sod 60) 60)

/-- Models the MST verb of eventTime.Format for a zone produced by parsing
RFC3339: the name UTC for a zero offset, otherwise the numeric offset. -/
def zoneSuffix (t : GoTime) : String :=
  if t.offset = 0 then "UTC"
  else
    let a := if t.offset < 0 then -t.offset else t.offset
    (if t.offset < 0 then "-" else "+") ++ pad2 (Int.fdiv a 3600) ++
      pad2 (Int.fmod (Int.fdiv a 60) 60)

/-- Models formatDuration from the reminder package; the argument is a Go
time.Duration in nanoseconds, and the int conversions of d.Seconds(),
d.Minutes() and d.Hours() truncate toward zero. -/
def formatDuration (d : Int) : String :=
  if d < 60000000000 then
    toString (Int.tdiv d 1000000000) ++ " seconds"
  else if d < 3600000000000 then
    toString (Int.tdiv d 60000000000) ++ " minutes"
  else
    let hours := Int.tdiv d 3600000000000
    let minutes := Int.tmod (Int.tdiv d 60000000000) 60
    if minutes = 0 then toString hours ++ " hour"
    else toString hours ++ " hour " ++ toString minutes ++ " minutes"

/-- A calendar event as consumed by checkUpcomingMeetings: the provider id,
Summary, Description, Location, the raw Start.DateTime string and the
attendee email list. -/
structure Event where
  id : String
  summary : String
  description : String
  location : String
  startDateTime : String
  attendees : List String
deriving DecidableEq, Repr

/-- One call of telegramBot.SendReminder made during a tick: the target
chat, the reminder key of the occurrence that triggered it, the message
text and the return value of the send (the tick ignores it). -/
structure Send where
  chatID : Int
  key : String
  msg : String
  ok : Bool
deriving DecidableEq, Repr

/-- The resolvable start time of an event: the empty Start.DateTime check
followed by time.Parse(time.RFC3339, ...); both failures make the loop
skip the event. -/
def startTimeOf (e : Event) : Option GoTime :=
  if e.startDateTime = "" then none else parseRFC3339 e.startDateTime

/-- The dedup key fmt.Sprintf("%s_%s", event.Id, eventTime.Format("2006-01-02T15:04")). -/
def reminderKey (e : Event) (t : GoTime) : String :=
  e.id ++ "_" ++ formatMinute t

/-- The reminder message assembled by checkUpcomingMeetings before the
fan-out loop: title, time remaining, optional description and location,
nonempty attendee emails, and the start wall clock with zone. -/
def buildReminderMessage (e : Event) (t now : GoTime) : String :=
  let m1 := "🔔 **Meeting Reminder**\n\n📅 **" ++ e.summary ++ "**\n\n⏰ Starting in " ++
    formatDuration ((t.unix - now.unix) * 1000000000) ++ "\n\n"
  let m2 := if e.description ≠ "" then m1 ++ "📝 " ++ e.description ++ "\n\n" else m1
  let m3 := if e.location ≠ "" then m2 ++ "📍 " ++ e.location ++ "\n\n" else m2
  let names := e.attendees.filter (fun a => a != "")
  let m4 :=
    if e.attendees.length > 0 ∧ names.length > 0 then
      m3 ++ "👥 Attendees: " ++ String.intercalate ", " names ++ "\n\n"
    else m3
  m4 ++ "🕐 " ++ formatHM t ++ " " ++ zoneSuffix t

/-- The body of the per-event loop of checkUpcomingMeetings. An event with
no resolvable start time is skipped. A past event (start strictly before
now) only has its bookkeeping entry deleted when present. An event with
start before now plus ten minutes is delivered to every chat id and its
key is then set in the map regardless of the send results; if its key is
already present the event is skipped. Later events are untouched. -/
def processEvent (chatIDs : List Int) (now : GoTime) (outcome : Int → Bool)
    (st : List String) (e : Event) : List String × List Send :=
  match startTimeOf e with
  | none => (st, [])
  | some t =>
    let key := reminderKey e t
    if t.unix < now.unix then
      (if key ∈ st then st.filter (fun k => k != key) else st, [])
    else if t.unix < now.unix + 600 then
      if key ∈ st then (st, [])
      else
        (if key ∈ st then st else key :: st,
         chatIDs.map fun c =>
           { chatID := c, key := key, msg := buildReminderMessage e t now, ok := outcome c })
    else (st, [])

/-- The for-loop of checkUpcomingMeetings over the fetched events, threading
the sentReminders map and collecting every delivery attempt in order. -/
def tickLoop (chatIDs : List Int) (now : GoTime) (outcome : Int → Bool) :
    List Event → List String → List String × List Send
  | [], st => (st, [])
  | e :: rest, st =>
    let r1 := processEvent chatIDs now outcome st e
    let r2 := tickLoop chatIDs now outcome rest r1.1
    (r2.1, r1.2 ++ r2.2)

/-- One tick of the reminder engine (checkUpcomingMeetings): when no chat id
is registered the tick returns at once; otherwise the fetched events are
processed in order against the sentReminders map. The event list stands for
a successful GetUpcomingEvents answer, and outcome gives the return value
of each SendReminder call. -/
def checkUpcomingMeetings (chatIDs : List Int) (events : List Event) (now : GoTime)
    (outcome : Int → Bool) (st : List String) : List String × List Send :=
  if chatIDs = [] then (st, [])
  else tickLoop chatIDs now outcome events st

/-- The housekeeping pass cleanupOldReminders: every key whose underscore
suffix parses with layout 2006-01-02T15:04 to a time before now minus two
hours is deleted; keys with fewer than two underscore parts or an
unparsable suffix are kept. -/
def cleanupOldReminders (nowUnix : Int) (st : List String) : List String :=
  st.filter fun key =>
    let parts := goSplit '_' key
    if parts.length ≥ 2 then
      match parseMinuteUTC (parts.getLastD "") with
      | some tu => if tu < nowUnix - 7200 then false else true
      | none => true
    else true

/-- The recurring jobs the reminder service can run. -/
inductive CronJob where
  | checkUpcomingMeetingsJob
  | cleanupOldRemindersJob
deriving DecidableEq, Repr

/-- The cron registrations performed by ReminderService.Start: exactly one
AddFunc call, scheduling checkUpcomingMeetings every five seconds; no call
site in the repository ever registers or invokes cleanupOldReminders. -/
def startJobs : List (String × CronJob) :=
  [("*/5 * * * * *", CronJob.checkUpcomingMeetingsJob)]

/-- Occurrence identity invariant of the data model: two events never share
a reminder key (the provider id together with the minute-truncated start
time uniquely identifies one occurrence). -/
def keyDistinct (a b : Event) : Prop :=
  ∀ ta tb, startTimeOf a = some ta → startTimeOf b = some tb →
    reminderKey a ta ≠ reminderKey b tb

end Reminder

namespace Bot

/-- The field variables of createEventFromResponse, in their zero state. -/
structure EventFields where
  title : String := ""
  description : String := ""
  startTime : String := ""
  endTime : String := ""
  attendeesStr : String := ""
deriving DecidableEq, Repr

/-- The field-collection loop of createEventFromResponse: each line is
trimmed first, then matched against the field tags in source order, the
matching tag value (trimmed) overwriting the variable. -/
def extractEventFields : List String → EventFields → EventFields
  | [], f => f
  | line :: rest, f =>
    let l := goTrim line
    if goHasPrefix l "TITLE:" then
      extractEventFields rest { f with title := goTrim (stripTag l "TITLE:") }
    else if goHasPrefix l "DESCRIPTION:" then
      extractEventFields rest { f with description := goTrim (stripTag l "DESCRIPTION:") }
    else if goHasPrefix l "START_TIME:" then
      extractEventFields rest { f with startTime := goTrim (stripTag l "START_TIME:") }
    else if goHasPrefix l "END_TIME:" then
      extractEventFields rest { f with endTime := goTrim (stripTag l "END_TIME:") }
    else if goHasPrefix l "ATTENDEES:" then
      extractEventFields rest { f with attendeesStr := goTrim (stripTag l "ATTENDEES:") }
    else extractEventFields rest f

/-- The attendee parsing of createEventFromResponse: unless the collected
value is empty or the literal word empty, split on commas, trim each part
and keep the nonempty ones. -/
def parseAttendees (s : String) : List String :=
  if s ≠ "" ∧ s ≠ "empty" then
    ((goSplit ',' s).map goTrim).filter (fun e => e != "")
  else []

/-- The reply returned when a required field is missing. -/
def needMoreInfoReply : String :=
  "I need more information to create the event. Please provide a title, start time, and end time."

/-- What createEventFromResponse does after collecting fields: either it
refuses with a reply and never touches the calendar, or it invokes
CreateEventWithAttendees with exactly the recorded arguments. -/
inductive CreateOutcome where
  | refused (reply : String)
  | attempt (title description startTime endTime : String) (attendees : List String)
deriving DecidableEq, Repr

/-- Models createEventFromResponse: collects the field lines of the blob
and either refuses (missing TITLE, START_TIME or END_TIME) or calls the
calendar collaborator with the collected values. -/
def createEventFromResponse (response : String) : CreateOutcome :=
  let f := extractEventFields (strLines response) {}
  if f.title = "" ∨ f.startTime = "" ∨ f.endTime = "" then
    .refused needMoreInfoReply
  else
    .attempt f.title f.description f.startTime f.endTime (parseAttendees f.attendeesStr)

/-- The RESPONSE line scan of getGeneralResponse: the first line with the
untrimmed prefix RESPONSE: supplies the reply. -/
def findGeneralReply : List String → Option String
  | [] => none
  | line :: rest =>
    if goHasPrefix line "RESPONSE:" then some (goTrim (stripTag line "RESPONSE:"))
    else findGeneralReply rest

/-- Models getGeneralResponse: the RESPONSE field when present, otherwise
the whole blob. -/
def getGeneralResponse (blob : String) : String :=
  match findGeneralReply (strLines blob) with
  | some r => r
  | none => blob

/-- The value handleClaudeResponse returns: a dispatched calendar creation,
the today listing, a general reply, or the fallback that hands the whole
blob back as the reply with a nil error. -/
inductive HandlerResult where
  | create (outcome : CreateOutcome)
  | today
  | general (reply : String)
  | reply (text : String)
deriving DecidableEq, Repr

/-- The line scan of handleClaudeResponse: the prefix ACTION: is tested on
the raw, untrimmed line; a recognized tag dispatches, an unknown tag lets
the loop continue, and falling off the end returns the blob itself. -/
def dispatchLines (blob : String) : List String → HandlerResult
  | [] => .reply blob
  | line :: rest =>
    if goHasPrefix line "ACTION:" then
      let action := goTrim (stripTag line "ACTION:")
      if action = "CREATE_EVENT" then .create (createEventFromResponse blob)
      else if action = "CHECK_TODAY" then .today
      else if action = "GENERAL" then .general (getGeneralResponse blob)
      else dispatchLines blob rest
    else dispatchLines blob rest

/-- Models handleClaudeResponse over the newline-split blob. -/
def handleClaudeResponse (blob : String) : HandlerResult :=
  dispatchLines blob (strLines blob)

end Bot

namespace Llm

/-- The calls the core makes to its two external collaborators: the two
natural-language engine entry points of the llm package and the three
calendar operations of the calendar package. -/
inductive ExternalCall where
  | processCalendarCommand
  | generalChat
  | getUpcomingEvents
  | getTodayEvents
  | createEventWithAttendees
deriving DecidableEq, Repr

/-- Which collaborator each call reaches. -/
inductive CollabTarget where
  | nlEngine
  | calendarApi
deriving DecidableEq, Repr

/-- The collaborator behind each call site. -/
def callTarget : ExternalCall → CollabTarget
  | .processCalendarCommand => .nlEngine
  | .generalChat => .nlEngine
  | .getUpcomingEvents => .calendarApi
  | .getTodayEvents => .calendarApi
  | .createEventWithAttendees => .calendarApi

/-- The explicit deadline each call site installs, read off the source:
ProcessCalendarCommand and GeneralChat wrap their context with
context.WithTimeout(ctx, 30*time.Second) before running the engine, while
the three calendar operations issue their Do() requests through a client
built on context.Background() with no deadline at all. -/
def callTimeoutSeconds : ExternalCall → Option Nat
  | .processCalendarCommand => some 30
  | .generalChat => some 30
  | .getUpcomingEvents => none
  | .getTodayEvents => none
  | .createEventWithAttendees => none

end Llm

namespace Reminder

/-- Membership in the filtered map after a delete of key. -/
theorem mem_filter_ne (st : List String) (k key : String) :
    k ∈ st.filter (fun x => x != key) ↔ k ∈ st ∧ k ≠ key := by
  simp [List.mem_filter, bne_iff_ne]

/-- An event without a resolvable start time leaves the state untouched and
sends nothing. -/
theorem processEvent_none (ids : List Int) (now : GoTime) (oc : Int → Bool)
    (st : List String) (e : Event) (hs : startTimeOf e = none) :
    processEvent ids now oc st e = (st, []) := by
  simp [processEvent, hs]

/-- The past-event branch: only the bookkeeping entry is (conditionally)
removed and nothing is sent. -/
theorem processEvent_past (ids : List Int) (now : GoTime) (oc : Int → Bool)
    (st : List String) (e : Event) (t : GoTime)
    (hs : startTimeOf e = some t) (hp : t.unix < now.unix) :
    processEvent ids now oc st e =
      (if reminderKey e t ∈ st then st.filter (fun x => x != reminderKey e t) else st, []) := by
  simp only [processEvent, hs]
  rw [if_pos hp]

/-- The in-window branch for a fresh key: one send per chat id, then the key
is inserted. -/
theorem processEvent_window_new (ids : List Int) (now : GoTime) (oc : Int → Bool)
    (st : List String) (e : Event) (t : GoTime)
    (hs : startTimeOf e = some t) (hp : ¬ t.unix < now.unix)
    (hw : t.unix < now.unix + 600) (hm : reminderKey e t ∉ st) :
    processEvent ids now oc st e =
      (reminderKey e t :: st,
       ids.map fun c =>
         { chatID := c, key := reminderKey e t, msg := buildReminderMessage e t now,
           ok := oc c }) := by
  simp only [processEvent, hs]
  rw [if_neg hp, if_pos hw, if_neg hm, if_neg hm]

/-- A non-past event whose key is already recorded, or that lies beyond the
ten-minute window, is a strict no-op. -/
theorem processEvent_skip (ids : List Int) (now : GoTime) (oc : Int → Bool)
    (st : List String) (e : Event) (t : GoTime)
    (hs : startTimeOf e = some t) (hp : ¬ t.unix < now.unix)
    (hc : reminderKey e t ∈ st ∨ ¬ t.unix < now.unix + 600) :
    processEvent ids now oc st e = (st, []) := by
  simp only [processEvent, hs]
  rw [if_neg hp]
  rcases hc with hm | hw
  · by_cases hw : t.unix < now.unix + 600
    · rw [if_pos hw, if_pos hm]
    · rw [if_neg hw]
  · rw [if_neg hw]

/-- Processing an event whose key differs from k never changes whether k is
recorded and never sends with key k. -/
theorem processEvent_preserves (ids : List Int) (now : GoTime) (oc : Int → Bool)
    (st : List String) (e : Event) (k : String)
    (hk : ∀ t, startTimeOf e = some t → reminderKey e t ≠ k) :
    (k ∈ (processEvent ids now oc st e).1 ↔ k ∈ st) ∧
      ∀ s2 ∈ (processEvent ids now oc st e).2, s2.key ≠ k := by
  cases hs : startTimeOf e with
  | none =>
    rw [processEvent_none ids now oc st e hs]
    exact ⟨Iff.rfl, by simp⟩
  | some t =>
    have hne : k ≠ reminderKey e t := (hk t hs).symm
    by_cases hp : t.unix < now.unix
    · rw [processEvent_past ids now oc st e t hs hp]
      refine ⟨?_, by simp⟩
      by_cases hm : reminderKey e t ∈ st
      · rw [if_pos hm]
        simp [List.mem_filter, bne_iff_ne, hne]
      · rw [if_neg hm]
    · by_cases hw : t.unix < now.unix + 600
      · by_cases hm : reminderKey e t ∈ st
        · rw [processEvent_skip ids now oc st e t hs hp (Or.inl hm)]
          exact ⟨Iff.rfl, by simp⟩
        · rw [processEvent_window_new ids now oc st e t hs hp hw hm]
          refine ⟨by simp [List.mem_cons, hne], ?_⟩
          intro s2 hs2
          simp only [List.mem_map] at hs2
          obtain ⟨c, _, rfl⟩ := hs2
          exact hk t hs
      · rw [processEvent_skip ids now oc st e t hs hp (Or.inr hw)]
        exact ⟨Iff.rfl, by simp⟩

/-- When k is recorded and the event cannot be a past occurrence of k, the
step keeps k recorded and never sends with key k. -/
theorem processEvent_keeps (ids : List Int) (now : GoTime) (oc : Int → Bool)
    (st : List String) (e : Event) (k : String) (hin : k ∈ st)
    (hnp : ∀ t, startTimeOf e = some t → reminderKey e t = k → ¬ t.unix < now.unix) :
    k ∈ (processEvent ids now oc st e).1 ∧
      ∀ s2 ∈ (processEvent ids now oc st e).2, s2.key ≠ k := by
  by_cases hk : ∀ t, startTimeOf e = some t → reminderKey e t ≠ k
  · obtain ⟨h1, h2⟩ := processEvent_preserves ids now oc st e k hk
    exact ⟨h1.mpr hin, h2⟩
  · push_neg at hk
    obtain ⟨t, hs, hkey⟩ := hk
    have hp := hnp t hs hkey
    have hmem : reminderKey e t ∈ st := by rw [hkey]; exact hin
    rw [processEvent_skip ids now oc st e t hs hp (Or.inl hmem)]
    exact ⟨hin, by simp⟩

/-- Every send of a step carries the key of an in-window fresh occurrence of
its event, and the step then records that key on top of the state. -/
theorem processEvent_send_origin (ids : List Int) (now : GoTime) (oc : Int → Bool)
    (st : List String) (e : Event) (s2 : Send)
    (h : s2 ∈ (processEvent ids now oc st e).2) :
    ∃ t, startTimeOf e = some t ∧ s2.key = reminderKey e t ∧
      ¬ t.unix < now.unix ∧ t.unix < now.unix + 600 ∧ reminderKey e t ∉ st ∧
      (processEvent ids now oc st e).1 = reminderKey e t :: st := by
  cases hs : startTimeOf e with
  | none => rw [processEvent_none ids now oc st e hs] at h; simp at h
  | some t =>
    by_cases hp : t.unix < now.unix
    · rw [processEvent_past ids now oc st e t hs hp] at h
      simp at h
    · by_cases hw : t.unix < now.unix + 600
      · by_cases hm : reminderKey e t ∈ st
        · rw [processEvent_skip ids now oc st e t hs hp (Or.inl hm)] at h
          simp at h
        · rw [processEvent_window_new ids now oc st e t hs hp hw hm] at h ⊢
          refine ⟨t, rfl, ?_, hp, hw, hm, rfl⟩
          simp only [List.mem_map] at h
          obtain ⟨c, _, rfl⟩ := h
          rfl
      · rw [processEvent_skip ids now oc st e t hs hp (Or.inr hw)] at h
        simp at h

/-- Unfolding of the event loop on a cons cell. -/
theorem tickLoop_cons_eq (ids : List Int) (now : GoTime) (oc : Int → Bool)
    (e : Event) (rest : List Event) (st : List String) :
    tickLoop ids now oc (e :: rest) st =
      ((tickLoop ids now oc rest (processEvent ids now oc st e).1).1,
       (processEvent ids now oc st e).2 ++
         (tickLoop ids now oc rest (processEvent ids now oc st e).1).2) := rfl

/-- The event loop neither touches the recording of k nor sends with key k
when no processed event can carry key k. -/
theorem tickLoop_preserves (ids : List Int) (now : GoTime) (oc : Int → Bool)
    (events : List Event) (st : List String) (k : String)
    (hk : ∀ e ∈ events, ∀ t, startTimeOf e = some t → reminderKey e t ≠ k) :
    (k ∈ (tickLoop ids now oc events st).1 ↔ k ∈ st) ∧
      ∀ s2 ∈ (tickLoop ids now oc events st).2, s2.key ≠ k := by
  induction events generalizing st with
  | nil => exact ⟨Iff.rfl, by simp [tickLoop]⟩
  | cons e rest ih =>
    obtain ⟨h1, h2⟩ :=
      processEvent_preserves ids now oc st e k (hk e (List.mem_cons_self e rest))
    obtain ⟨h3, h4⟩ :=
      ih (processEvent ids now oc st e).1 (fun e2 he2 => hk e2 (List.mem_cons_of_mem e he2))
    rw [tickLoop_cons_eq]
    refine ⟨h3.trans h1, ?_⟩
    intro s2 hs2
    rcases List.mem_append.mp hs2 with h | h
    · exact h2 s2 h
    · exact h4 s2 h

/-- Once k is recorded, a loop over events that cannot contain a past
occurrence of k keeps k recorded and never sends with key k. -/
theorem tickLoop_keeps (ids : List Int) (now : GoTime) (oc : Int → Bool)
    (events : List Event) (st : List String) (k : String) (hin : k ∈ st)
    (hnp : ∀ e ∈ events, ∀ t, startTimeOf e = some t → reminderKey e t = k →
      ¬ t.unix < now.unix) :
    k ∈ (tickLoop ids now oc events st).1 ∧
      ∀ s2 ∈ (tickLoop ids now oc events st).2, s2.key ≠ k := by
  induction events generalizing st with
  | nil => exact ⟨hin, by simp [tickLoop]⟩
  | cons e rest ih =>
    obtain ⟨h1, h2⟩ :=
      processEvent_keeps ids now oc st e k hin (hnp e (List.mem_cons_self e rest))
    obtain ⟨h3, h4⟩ :=
      ih (processEvent ids now oc st e).1 h1
        (fun e2 he2 => hnp e2 (List.mem_cons_of_mem e he2))
    rw [tickLoop_cons_eq]
    refine ⟨h3, ?_⟩
    intro s2 hs2
    rcases List.mem_append.mp hs2 with h | h
    · exact h2 s2 h
    · exact h4 s2 h

/-- Every send of the loop originates from an in-window, not-past occurrence
of some processed event. -/
theorem tickLoop_send_origin (ids : List Int) (now : GoTime) (oc : Int → Bool)
    (events : List Event) (st : List String) (s2 : Send)
    (h : s2 ∈ (tickLoop ids now oc events st).2) :
    ∃ e ∈ events, ∃ t, startTimeOf e = some t ∧ s2.key = reminderKey e t ∧
      ¬ t.unix < now.unix ∧ t.unix < now.unix + 600 := by
  induction events generalizing st with
  | nil => simp [tickLoop] at h
  | cons e rest ih =>
    rw [tickLoop_cons_eq] at h
    rcases List.mem_append.mp h with h1 | h1
    · obtain ⟨t, hs, hkey, hp, hw, _, _⟩ := processEvent_send_origin ids now oc st e s2 h1
      exact ⟨e, List.mem_cons_self e rest, t, hs, hkey, hp, hw⟩
    · obtain ⟨e2, he2, hrest⟩ := ih (processEvent ids now oc st e).1 h1
      exact ⟨e2, List.mem_cons_of_mem e he2, hrest⟩

/-- A key sent during the loop is recorded when the loop ends, provided no
processed event is a past occurrence of that key. -/
theorem tickLoop_sent_mem (ids : List Int) (now : GoTime) (oc : Int → Bool)
    (events : List Event) (st : List String) (k : String)
    (hnp : ∀ e ∈ events, ∀ t, startTimeOf e = some t → reminderKey e t = k →
      ¬ t.unix < now.unix)
    (h : ∃ s2 ∈ (tickLoop ids now oc events st).2, s2.key = k) :
    k ∈ (tickLoop ids now oc events st).1 := by
  induction events generalizing st with
  | nil =>
    obtain ⟨s2, hs2, _⟩ := h
    simp [tickLoop] at hs2
  | cons e rest ih =>
    rw [tickLoop_cons_eq] at h ⊢
    obtain ⟨s2, hs2, hkey⟩ := h
    rcases List.mem_append.mp hs2 with h1 | h1
    · obtain ⟨t, hs, hk2, hp, hw, hm, hst⟩ := processEvent_send_origin ids now oc st e s2 h1
      have hke : reminderKey e t = k := hk2.symm.trans hkey
      have hkin : k ∈ (processEvent ids now oc st e).1 := by
        rw [hst, ← hke]
        exact List.mem_cons_self _ _
      exact (tickLoop_keeps ids now oc rest (processEvent ids now oc st e).1 k hkin
        (fun e2 he2 => hnp e2 (List.mem_cons_of_mem e he2))).1
    · exact ih (processEvent ids now oc st e).1
        (fun e2 he2 => hnp e2 (List.mem_cons_of_mem e he2)) ⟨s2, h1, hkey⟩

/-- Splitting the event loop around a list decomposition. -/
theorem tickLoop_append (ids : List Int) (now : GoTime) (oc : Int → Bool)
    (l1 l2 : List Event) (st : List String) :
    tickLoop ids now oc (l1 ++ l2) st =
      ((tickLoop ids now oc l2 (tickLoop ids now oc l1 st).1).1,
       (tickLoop ids now oc l1 st).2 ++
         (tickLoop ids now oc l2 (tickLoop ids now oc l1 st).1).2) := by
  induction l1 generalizing st with
  | nil => simp [tickLoop]
  | cons e rest ih =>
    rw [List.cons_append, tickLoop_cons_eq, tickLoop_cons_eq, ih]
    simp [List.append_assoc]

/-- With at least one registered chat the tick is exactly the event loop. -/
theorem checkUpcomingMeetings_eq (ids : List Int) (events : List Event) (now : GoTime)
    (oc : Int → Bool) (st : List String) (hids : ids ≠ []) :
    checkUpcomingMeetings ids events now oc st = tickLoop ids now oc events st := by
  simp [checkUpcomingMeetings, hids]

/-- The key-distinctness relation is symmetric. -/
theorem keyDistinct_symm : Symmetric keyDistinct :=
  fun _ _ h ta tb hsa hsb => (h tb ta hsb hsa).symm

end Reminder

namespace Reminder

/-- The concrete event used to instantiate the C1 counterexample at the
upper window boundary: it starts at 600 seconds after the epoch, UTC. -/
def c1BoundaryEv : Event :=
  { id := "ev1", summary := "Standup", description := "", location := "",
    startDateTime := "1970-01-01T00:10:00Z", attendees := [] }

/-- A second C1 counterexample event, strictly inside the window. -/
def c1InsideEv : Event :=
  { id := "ev2", summary := "Standup", description := "", location := "",
    startDateTime := "1970-01-01T00:05:00Z", attendees := [] }

/-- C1 counterexample: the claim fails as stated. First, an event starting
exactly at now plus ten minutes lies in the claimed window (now, now+10min]
yet a tick with one registered recipient makes no delivery attempt and
records no bookkeeping entry, because the code tests eventTime.Before(now
plus ten minutes) strictly. Second, an event strictly inside the window
gets no bookkeeping entry when no recipient is registered, because the
tick returns before examining events. -/
theorem c1_window_boundary_refuted :
    (startTimeOf c1BoundaryEv = some ⟨600, 0⟩ ∧ (0 : Int) < 600 ∧ (600 : Int) ≤ 0 + 600 ∧
      checkUpcomingMeetings [7] [c1BoundaryEv] ⟨0, 0⟩ (fun _ => true) [] = ([], [])) ∧
    (startTimeOf c1InsideEv = some ⟨300, 0⟩ ∧ (0 : Int) < 300 ∧ (300 : Int) ≤ 0 + 600 ∧
      checkUpcomingMeetings [] [c1InsideEv] ⟨0, 0⟩ (fun _ => true) [] = ([], [])) := by
  decide

/-- C1 (amended): for every event with a parsable start time in the window
[now, now+10min) whose reminder key has no bookkeeping entry, when at least
one recipient is registered and occurrences have distinct keys, one tick
makes exactly one delivery attempt per registered chat id, in registration
order, and afterwards the key is recorded — whatever the individual send
outcomes are. -/
theorem c1_tick_delivery (ids : List Int) (events : List Event) (now : GoTime)
    (oc : Int → Bool) (st : List String) (e : Event) (t : GoTime)
    (hids : ids ≠ [])
    (hpair : events.Pairwise keyDistinct)
    (hmem : e ∈ events)
    (hs : startTimeOf e = some t)
    (hlow : now.unix ≤ t.unix) (hhigh : t.unix < now.unix + 600)
    (hnew : reminderKey e t ∉ st) :
    ((checkUpcomingMeetings ids events now oc st).2.filter
        (fun s2 => s2.key == reminderKey e t)).map Send.chatID = ids ∧
      reminderKey e t ∈ (checkUpcomingMeetings ids events now oc st).1 := by
  obtain ⟨pre, post, rfl⟩ := List.append_of_mem hmem
  rw [List.pairwise_append] at hpair
  obtain ⟨hconsPair, hpostPair⟩ := List.pairwise_cons.mp hpair.2.1
  have hkpre : ∀ a ∈ pre, ∀ ta, startTimeOf a = some ta → reminderKey a ta ≠ reminderKey e t :=
    fun a ha ta hta => hpair.2.2 a ha e (List.mem_cons_self e post) ta t hta hs
  have hkpost : ∀ b ∈ post, ∀ tb, startTimeOf b = some tb → reminderKey b tb ≠ reminderKey e t :=
    fun b hb tb htb => (hconsPair b hb t tb hs htb).symm
  rw [checkUpcomingMeetings_eq _ _ _ _ _ hids, tickLoop_append, tickLoop_cons_eq]
  obtain ⟨hiff1, hsend1⟩ :=
    tickLoop_preserves ids now oc pre st (reminderKey e t) hkpre
  have hnew1 : reminderKey e t ∉ (tickLoop ids now oc pre st).1 :=
    fun hmem1 => hnew (hiff1.mp hmem1)
  have hstep := processEvent_window_new ids now oc (tickLoop ids now oc pre st).1 e t hs
    (not_lt.mpr hlow) hhigh hnew1
  rw [hstep]
  obtain ⟨hiff3, hsend3⟩ :=
    tickLoop_preserves ids now oc post (reminderKey e t :: (tickLoop ids now oc pre st).1)
      (reminderKey e t) hkpost
  refine ⟨?_, hiff3.mpr (List.mem_cons_self _ _)⟩
  have hf1 : (tickLoop ids now oc pre st).2.filter (fun s2 => s2.key == reminderKey e t) = [] :=
    List.filter_eq_nil_iff.mpr (fun s2 h => by simpa using hsend1 s2 h)
  have hf3 :
      (tickLoop ids now oc post (reminderKey e t :: (tickLoop ids now oc pre st).1)).2.filter
        (fun s2 => s2.key == reminderKey e t) = [] :=
    List.filter_eq_nil_iff.mpr (fun s2 h => by simpa using hsend3 s2 h)
  have hf2 :
      (ids.map fun c =>
          ({ chatID := c, key := reminderKey e t,
             msg := buildReminderMessage e t now, ok := oc c } : Send)).filter
        (fun s2 => s2.key == reminderKey e t) =
        ids.map fun c =>
          ({ chatID := c, key := reminderKey e t,
             msg := buildReminderMessage e t now, ok := oc c } : Send) := by
    refine List.filter_eq_self.mpr ?_
    intro s2 hs2
    obtain ⟨c, _, rfl⟩ := List.mem_map.mp hs2
    simp
  simp only [List.filter_append, hf1, hf2, hf3, List.nil_append, List.append_nil,
    List.map_map]
  exact List.map_id ids

/-- C1 witness event: starts 570 seconds after now, inside the window. -/
def c1Ev : Event :=
  { id := "ev1", summary := "Standup", description := "", location := "",
    startDateTime := "1970-01-01T00:10:00Z", attendees := [] }

/-- C1 witness: concrete instantiation of the amended delivery theorem. -/
theorem c1_tick_delivery_witness :
    ((checkUpcomingMeetings [7] [c1Ev] ⟨30, 0⟩ (fun _ => true) []).2.filter
        (fun s2 => s2.key == reminderKey c1Ev ⟨600, 0⟩)).map Send.chatID = [7] ∧
      reminderKey c1Ev ⟨600, 0⟩ ∈ (checkUpcomingMeetings [7] [c1Ev] ⟨30, 0⟩ (fun _ => true) []).1 :=
  c1_tick_delivery [7] [c1Ev] ⟨30, 0⟩ (fun _ => true) [] c1Ev ⟨600, 0⟩ (by decide)
    (by simp) (by simp) (by decide) (by decide) (by decide) (by decide)

/-- C2: the housekeeping pass is dead code, so bookkeeping entries over two
hours old are never purged while the engine runs. Start registers exactly
one cron function, checkUpcomingMeetings, and nothing in the repository
calls cleanupOldReminders; a tick leaves a stale entry (encoded 00:10,
now four hours later) in place, even though the housekeeping pass itself
would have purged exactly that entry had it ever been invoked. -/
theorem c2_housekeeping_dead_code :
    (∀ j ∈ startJobs, j.2 ≠ CronJob.cleanupOldRemindersJob) ∧
      (checkUpcomingMeetings [42] [] ⟨14400, 0⟩ (fun _ => true) ["e1_1970-01-01T00:10"]).1 =
        ["e1_1970-01-01T00:10"] ∧
      cleanupOldReminders 14400 ["e1_1970-01-01T00:10"] = [] := by
  decide

/-- C3 witness event shares the setup of the C1 witness. -/
def c3Ev : Event :=
  { id := "ev1", summary := "Standup", description := "", location := "",
    startDateTime := "1970-01-01T00:10:00Z", attendees := [] }

/-- C3: two consecutive ticks with unchanged events, unchanged now and
distinct occurrence keys deliver a key at most once: any key sent by the
first tick is recorded in the bookkeeping set the second tick starts from,
and the second tick makes no delivery attempt for it. -/
theorem c3_two_ticks_idempotent (ids : List Int) (events : List Event) (now : GoTime)
    (oc : Int → Bool) (st : List String)
    (hpair : events.Pairwise keyDistinct) (k : String)
    (hsent : ∃ s2 ∈ (checkUpcomingMeetings ids events now oc st).2, s2.key = k) :
    k ∈ (checkUpcomingMeetings ids events now oc st).1 ∧
      ∀ s2 ∈ (checkUpcomingMeetings ids events now oc
          (checkUpcomingMeetings ids events now oc st).1).2, s2.key ≠ k := by
  by_cases hids : ids = []
  · subst hids
    obtain ⟨s2, hs2, _⟩ := hsent
    simp [checkUpcomingMeetings] at hs2
  · simp only [checkUpcomingMeetings, if_neg hids] at hsent ⊢
    obtain ⟨s2, hs2, hkey⟩ := hsent
    obtain ⟨e0, he0, t0, hs0, hk0, hp0, _⟩ := tickLoop_send_origin ids now oc events st s2 hs2
    have hke : reminderKey e0 t0 = k := hk0.symm.trans hkey
    have hnp : ∀ e ∈ events, ∀ t, startTimeOf e = some t → reminderKey e t = k →
        ¬ t.unix < now.unix := by
      intro e he t ht hkeq
      by_cases heq : e = e0
      · subst heq
        have hte : t = t0 := Option.some.inj (ht.symm.trans hs0)
        subst hte
        exact hp0
      · have hR := List.Pairwise.forall keyDistinct_symm hpair he he0 heq
        exact absurd (hkeq.trans hke.symm) (hR t t0 ht hs0)
    have hmem1 := tickLoop_sent_mem ids now oc events st k hnp ⟨s2, hs2, hkey⟩
    exact ⟨hmem1,
      (tickLoop_keeps ids now oc events (tickLoop ids now oc events st).1 k hmem1 hnp).2⟩

/-- C3 witness: concrete two-tick run on one event; the second tick is a
no-op for the key the first tick sent. -/
theorem c3_two_ticks_idempotent_witness :
    "ev1_1970-01-01T00:10" ∈
        (checkUpcomingMeetings [7] [c3Ev] ⟨30, 0⟩ (fun _ => true) []).1 ∧
      ∀ s2 ∈ (checkUpcomingMeetings [7] [c3Ev] ⟨30, 0⟩ (fun _ => true)
          (checkUpcomingMeetings [7] [c3Ev] ⟨30, 0⟩ (fun _ => true) []).1).2,
        s2.key ≠ "ev1_1970-01-01T00:10" :=
  c3_two_ticks_idempotent [7] [c3Ev] ⟨30, 0⟩ (fun _ => true) [] (by simp)
    "ev1_1970-01-01T00:10" (by decide)

/-- The concrete past event of the C4 counterexample and witness. -/
def c4Ev : Event :=
  { id := "ev1", summary := "Standup", description := "", location := "",
    startDateTime := "1970-01-01T00:10:00Z", attendees := [] }

/-- C4 counterexample: the claim fails as stated when no recipient is
registered: the event starts strictly before now and its key has a
bookkeeping entry, yet the tick returns before examining events, so the
entry survives. -/
theorem c4_no_recipients_refuted :
    startTimeOf c4Ev = some ⟨600, 0⟩ ∧ (600 : Int) < 900 ∧
      reminderKey c4Ev ⟨600, 0⟩ = "ev1_1970-01-01T00:10" ∧
      checkUpcomingMeetings [] [c4Ev] ⟨900, 0⟩ (fun _ => true) ["ev1_1970-01-01T00:10"] =
        (["ev1_1970-01-01T00:10"], []) := by
  decide

/-- C4 (amended): when at least one recipient is registered and occurrence
keys are distinct, a tick makes no delivery attempt for an event whose
start time is strictly before now, and after the tick no bookkeeping entry
for its key remains. -/
theorem c4_past_event_cleanup (ids : List Int) (events : List Event) (now : GoTime)
    (oc : Int → Bool) (st : List String) (e : Event) (t : GoTime)
    (hids : ids ≠ []) (hpair : events.Pairwise keyDistinct) (hmem : e ∈ events)
    (hs : startTimeOf e = some t) (hp : t.unix < now.unix) :
    (∀ s2 ∈ (checkUpcomingMeetings ids events now oc st).2, s2.key ≠ reminderKey e t) ∧
      reminderKey e t ∉ (checkUpcomingMeetings ids events now oc st).1 := by
  obtain ⟨pre, post, rfl⟩ := List.append_of_mem hmem
  rw [List.pairwise_append] at hpair
  obtain ⟨hconsPair, _⟩ := List.pairwise_cons.mp hpair.2.1
  have hkpre : ∀ a ∈ pre, ∀ ta, startTimeOf a = some ta → reminderKey a ta ≠ reminderKey e t :=
    fun a ha ta hta => hpair.2.2 a ha e (List.mem_cons_self e post) ta t hta hs
  have hkpost : ∀ b ∈ post, ∀ tb, startTimeOf b = some tb → reminderKey b tb ≠ reminderKey e t :=
    fun b hb tb htb => (hconsPair b hb t tb hs htb).symm
  rw [checkUpcomingMeetings_eq _ _ _ _ _ hids, tickLoop_append, tickLoop_cons_eq]
  obtain ⟨hiff1, hsend1⟩ := tickLoop_preserves ids now oc pre st (reminderKey e t) hkpre
  have hstep := processEvent_past ids now oc (tickLoop ids now oc pre st).1 e t hs hp
  rw [hstep]
  have hnotin2 :
      reminderKey e t ∉
        (if reminderKey e t ∈ (tickLoop ids now oc pre st).1 then
          (tickLoop ids now oc pre st).1.filter (fun x => x != reminderKey e t)
         else (tickLoop ids now oc pre st).1) := by
    by_cases hm : reminderKey e t ∈ (tickLoop ids now oc pre st).1
    · rw [if_pos hm]
      intro hcontra
      exact ((mem_filter_ne _ _ _).mp hcontra).2 rfl
    · rw [if_neg hm]
      exact hm
  obtain ⟨hiff3, hsend3⟩ :=
    tickLoop_preserves ids now oc post
      (if reminderKey e t ∈ (tickLoop ids now oc pre st).1 then
        (tickLoop ids now oc pre st).1.filter (fun x => x != reminderKey e t)
       else (tickLoop ids now oc pre st).1)
      (reminderKey e t) hkpost
  constructor
  · intro s2 hs2
    rcases List.mem_append.mp hs2 with h | h
    · exact hsend1 s2 h
    · rcases List.mem_append.mp h with h2 | h2
      · simp at h2
      · exact hsend3 s2 h2
  · exact fun hcontra => hnotin2 (hiff3.mp hcontra)

/-- C4 witness: concrete instantiation of the amended past-event theorem. -/
theorem c4_past_event_cleanup_witness :
    (∀ s2 ∈ (checkUpcomingMeetings [7] [c4Ev] ⟨900, 0⟩ (fun _ => true)
        ["ev1_1970-01-01T00:10"]).2, s2.key ≠ reminderKey c4Ev ⟨600, 0⟩) ∧
      reminderKey c4Ev ⟨600, 0⟩ ∉
        (checkUpcomingMeetings [7] [c4Ev] ⟨900, 0⟩ (fun _ => true)
          ["ev1_1970-01-01T00:10"]).1 :=
  c4_past_event_cleanup [7] [c4Ev] ⟨900, 0⟩ (fun _ => true) ["ev1_1970-01-01T00:10"]
    c4Ev ⟨600, 0⟩ (by decide) (by simp) (by simp) (by decide) (by decide)

/-- C9: formatDuration renders seconds below one minute, whole minutes
below one hour, and otherwise hours with the remaining minutes, omitting
the minutes clause when the remainder is zero; in particular 45 seconds,
5 minutes, 90 minutes and exactly 120 minutes render as stated. -/
theorem c9_format_duration_cases :
    (∀ d : Int, d < 60000000000 →
        formatDuration d = toString (Int.tdiv d 1000000000) ++ " seconds") ∧
      (∀ d : Int, 60000000000 ≤ d → d < 3600000000000 →
        formatDuration d = toString (Int.tdiv d 60000000000) ++ " minutes") ∧
      (∀ d : Int, 3600000000000 ≤ d → Int.tmod (Int.tdiv d 60000000000) 60 = 0 →
        formatDuration d = toString (Int.tdiv d 3600000000000) ++ " hour") ∧
      (∀ d : Int, 3600000000000 ≤ d → Int.tmod (Int.tdiv d 60000000000) 60 ≠ 0 →
        formatDuration d =
          toString (Int.tdiv d 3600000000000) ++ " hour " ++
            toString (Int.tmod (Int.tdiv d 60000000000) 60) ++ " minutes") ∧
      formatDuration (45 * 1000000000) = "45 seconds" ∧
      formatDuration (5 * 60000000000) = "5 minutes" ∧
      formatDuration (90 * 60000000000) = "1 hour 30 minutes" ∧
      formatDuration (120 * 60000000000) = "2 hour" := by
  refine ⟨?_, ?_, ?_, ?_, by decide, by decide, by decide, by decide⟩
  · intro d h
    simp only [formatDuration]
    rw [if_pos h]
  · intro d h1 h2
    simp only [formatDuration]
    rw [if_neg (not_lt.mpr h1), if_pos h2]
  · intro d h1 hm
    simp only [formatDuration]
    rw [if_neg (by omega), if_neg (by omega), if_pos hm]
  · intro d h1 hm
    simp only [formatDuration]
    rw [if_neg (by omega), if_neg (by omega), if_neg hm]

/-- C9 witness: the seconds clause applied at 45 seconds. -/
theorem c9_format_duration_cases_witness :
    formatDuration 45000000000 = toString (Int.tdiv (45000000000 : Int) 1000000000) ++ " seconds" :=
  c9_format_duration_cases.1 45000000000 (by decide)

end Reminder

namespace Bot

/-- The line scan falls through to the verbatim reply when no line both
starts with the untrimmed ACTION: prefix and carries a recognized tag. -/
theorem dispatchLines_fallback (blob : String) (lines : List String)
    (h : ∀ line ∈ lines, goHasPrefix line "ACTION:" = true →
      goTrim (stripTag line "ACTION:") ≠ "CREATE_EVENT" ∧
      goTrim (stripTag line "ACTION:") ≠ "CHECK_TODAY" ∧
      goTrim (stripTag line "ACTION:") ≠ "GENERAL") :
    dispatchLines blob lines = .reply blob := by
  induction lines with
  | nil => rfl
  | cons line rest ih =>
    have hrest := fun l hl => h l (List.mem_cons_of_mem line hl)
    by_cases hp : goHasPrefix line "ACTION:" = true
    · obtain ⟨h1, h2, h3⟩ := h line (List.mem_cons_self line rest) hp
      simp only [dispatchLines]
      rw [if_pos hp, if_neg h1, if_neg h2, if_neg h3]
      exact ih hrest
    · simp only [dispatchLines]
      rw [if_neg hp]
      exact ih hrest

/-- C6: a blob with no ACTION: line, or whose every ACTION: tag is not one
of CREATE_EVENT, CHECK_TODAY, GENERAL, is handled without error and the
reply is the original blob verbatim. -/
theorem c6_fallback_verbatim (blob : String)
    (h : ∀ line ∈ strLines blob, goHasPrefix line "ACTION:" = true →
      goTrim (stripTag line "ACTION:") ≠ "CREATE_EVENT" ∧
      goTrim (stripTag line "ACTION:") ≠ "CHECK_TODAY" ∧
      goTrim (stripTag line "ACTION:") ≠ "GENERAL") :
    handleClaudeResponse blob = .reply blob :=
  dispatchLines_fallback blob (strLines blob) h

/-- C6 witness: a blob with an unknown tag falls back verbatim. -/
theorem c6_fallback_verbatim_witness :
    handleClaudeResponse "ACTION: FLY\nPlease land" = .reply "ACTION: FLY\nPlease land" :=
  c6_fallback_verbatim "ACTION: FLY\nPlease land" (by decide)

/-- C7: a CREATE_EVENT blob missing TITLE, START_TIME or END_TIME (empty
after trimming) yields the need-more-information reply and never invokes
calendar creation; when the three required fields are present the creation
call is made with whatever DESCRIPTION and ATTENDEES collected, absent
ones included. -/
theorem c7_required_fields_guard (blob : String) :
    ((extractEventFields (strLines blob) {}).title = "" ∨
        (extractEventFields (strLines blob) {}).startTime = "" ∨
        (extractEventFields (strLines blob) {}).endTime = "" →
      createEventFromResponse blob = .refused needMoreInfoReply) ∧
    ((extractEventFields (strLines blob) {}).title ≠ "" →
      (extractEventFields (strLines blob) {}).startTime ≠ "" →
      (extractEventFields (strLines blob) {}).endTime ≠ "" →
      createEventFromResponse blob =
        .attempt (extractEventFields (strLines blob) {}).title
          (extractEventFields (strLines blob) {}).description
          (extractEventFields (strLines blob) {}).startTime
          (extractEventFields (strLines blob) {}).endTime
          (parseAttendees (extractEventFields (strLines blob) {}).attendeesStr)) := by
  constructor
  · intro h
    simp only [createEventFromResponse]
    rw [if_pos h]
  · intro h1 h2 h3
    simp only [createEventFromResponse]
    rw [if_neg (by push_neg; exact ⟨h1, h2, h3⟩)]

/-- C7 witness: a blob lacking END_TIME refuses; a complete blob without
DESCRIPTION and ATTENDEES still attempts creation. -/
theorem c7_required_fields_guard_witness :
    createEventFromResponse "ACTION: CREATE_EVENT\nTITLE: Sync\nSTART_TIME: 2025-01-02T09:00:00+07:00" =
        .refused needMoreInfoReply ∧
      createEventFromResponse
          "ACTION: CREATE_EVENT\nTITLE: Sync\nSTART_TIME: 2025-01-02T09:00:00+07:00\nEND_TIME: 2025-01-02T10:00:00+07:00" =
        .attempt "Sync" "" "2025-01-02T09:00:00+07:00" "2025-01-02T10:00:00+07:00" [] := by
  constructor
  · exact (c7_required_fields_guard _).1 (by decide)
  · have h := (c7_required_fields_guard
      "ACTION: CREATE_EVENT\nTITLE: Sync\nSTART_TIME: 2025-01-02T09:00:00+07:00\nEND_TIME: 2025-01-02T10:00:00+07:00").2
      (by decide) (by decide) (by decide)
    rw [h]
    decide

/-- C8: the sample CREATE_EVENT blob parses to exactly the trimmed field
values with a two-element attendee list, and an ATTENDEES value that is
empty or the literal word empty yields no attendees for any blob. -/
theorem c8_parser_round_trip :
    createEventFromResponse
        "ACTION: CREATE_EVENT\nTITLE: Standup\nSTART_TIME: 2025-01-02T09:00:00+07:00\nEND_TIME: 2025-01-02T09:30:00+07:00\nATTENDEES: a@x.com, b@x.com" =
      .attempt "Standup" "" "2025-01-02T09:00:00+07:00" "2025-01-02T09:30:00+07:00"
        ["a@x.com", "b@x.com"] ∧
    ∀ blob : String,
      (extractEventFields (strLines blob) {}).attendeesStr = "" ∨
        (extractEventFields (strLines blob) {}).attendeesStr = "empty" →
      parseAttendees (extractEventFields (strLines blob) {}).attendeesStr = [] := by
  constructor
  · decide
  · intro blob h
    rcases h with h | h <;> rw [h] <;> decide

/-- C8 witness: the attendee clause applied to a blob whose ATTENDEES value
is the literal word empty. -/
theorem c8_parser_round_trip_witness :
    parseAttendees (extractEventFields (strLines "ATTENDEES: empty") {}).attendeesStr = [] :=
  c8_parser_round_trip.2 "ATTENDEES: empty" (by decide)

/-- The line scan returns the verbatim reply when no raw line starts with
the ACTION: prefix. -/
theorem dispatchLines_no_action (blob : String) (lines : List String)
    (h : ∀ line ∈ lines, goHasPrefix line "ACTION:" = false) :
    dispatchLines blob lines = .reply blob := by
  induction lines with
  | nil => rfl
  | cons line rest ih =>
    have hl := h line (List.mem_cons_self line rest)
    simp only [dispatchLines]
    rw [if_neg (by simp [hl])]
    exact ih (fun l hl2 => h l (List.mem_cons_of_mem line hl2))

/-- C10: ACTION: is matched against the raw line, so a blob whose every
line fails the untrimmed prefix test (in particular when every ACTION line
is indented) is returned verbatim; field lines are trimmed before prefix
matching, so the indented field lines of the same blob would still be
collected by the field extractor. -/
theorem c10_untrimmed_action_match :
    (∀ blob : String, (∀ line ∈ strLines blob, goHasPrefix line "ACTION:" = false) →
        handleClaudeResponse blob = .reply blob) ∧
      extractEventFields
          (strLines "  ACTION: CREATE_EVENT\n  TITLE: Standup\n  START_TIME: 2025-01-02T09:00:00+07:00\n  END_TIME: 2025-01-02T09:30:00+07:00\n  ATTENDEES: a@x.com") {} =
        { title := "Standup", description := "", startTime := "2025-01-02T09:00:00+07:00",
          endTime := "2025-01-02T09:30:00+07:00", attendeesStr := "a@x.com" } ∧
      handleClaudeResponse
          "  ACTION: CREATE_EVENT\n  TITLE: Standup\n  START_TIME: 2025-01-02T09:00:00+07:00\n  END_TIME: 2025-01-02T09:30:00+07:00\n  ATTENDEES: a@x.com" =
        .reply
          "  ACTION: CREATE_EVENT\n  TITLE: Standup\n  START_TIME: 2025-01-02T09:00:00+07:00\n  END_TIME: 2025-01-02T09:30:00+07:00\n  ATTENDEES: a@x.com" := by
  refine ⟨fun blob h => dispatchLines_no_action blob (strLines blob) h, by decide, by decide⟩

/-- C10 witness: an indented action line is not recognized. -/
theorem c10_untrimmed_action_match_witness :
    handleClaudeResponse " ACTION: GENERAL" = .reply " ACTION: GENERAL" :=
  c10_untrimmed_action_match.1 " ACTION: GENERAL" (by decide)

end Bot

namespace Llm

/-- C5 counterexample: the claim fails as stated, because the upcoming-events
query of the calendar collaborator is issued with no explicit timeout. -/
theorem c5_calendar_timeout_refuted :
    callTimeoutSeconds ExternalCall.getUpcomingEvents = none ∧
      ¬ ∀ c : ExternalCall, callTimeoutSeconds c = some 30 := by
  refine ⟨rfl, fun h => ?_⟩
  have h2 := h ExternalCall.getUpcomingEvents
  simp [callTimeoutSeconds] at h2

/-- C5 (amended): every call to the natural-language engine is invoked
under an explicit thirty-second timeout, while every call to the calendar
collaborator is issued with no explicit timeout. -/
theorem c5_timeouts (c : ExternalCall) :
    (callTarget c = CollabTarget.nlEngine → callTimeoutSeconds c = some 30) ∧
      (callTarget c = CollabTarget.calendarApi → callTimeoutSeconds c = none) := by
  cases c <;> decide

/-- C5 witness: the amended statement at the two dispatch paths. -/
theorem c5_timeouts_witness :
    callTimeoutSeconds ExternalCall.processCalendarCommand = some 30 ∧
      callTimeoutSeconds ExternalCall.createEventWithAttendees = none :=
  ⟨(c5_timeouts ExternalCall.processCalendarCommand).1 rfl,
   (c5_timeouts ExternalCall.createEventWithAttendees).2 rfl⟩

end Llm
